import Mathlib

/-!
Shallow embedding of the telegraf `sqlserver` input plugin
(`plugins/inputs/sqlserver/sqlserver.go`).

Embedded here: the query-set selection (`initQueries` with its
include/exclude filter closure), the gather orchestration
(`Gather` / `gatherServer`), and the row decoder (`accRow`).

Modelling conventions:
* The SQL text constants are opaque to the engine, so each Go
  `const sqlFoo string = ...` becomes one constructor of `SqlScript`.
* Go maps whose keys are distinct in every run (`s.queries`,
  `columnMap`, the tag/field maps of one row) are modelled as
  association lists; map-membership of the include/exclude/tag sets
  built from configuration lists is list membership.
* A failed Go type assertion `v.(string)` panics; a panic in a gather
  goroutine is unrecovered and kills the process.  The decoder result
  type has an explicit constructor for it, and the orchestrator result
  carries a `panicked` flag.
* The database driver is the environment: a `DB` value records, for one
  (server, script) unit, what `sql.Open`, `Query`, `Columns`, `Scan`
  and `rows.Err` return.  Goroutines are modelled sequentially; every
  property stated is order-irrelevant.
-/

namespace SqlServerPlugin

/-- Opaque handles for the SQL text constants of the source file.
The engine never parses the text, so each constant is one constructor.
`sqlDatabaseIOV1` stands for the version-1 source constant whose Go
name is the version-2 name without the `V2` suffix. -/
inductive SqlScript
  | sqlAzureDBResourceStats
  | sqlAzureDBResourceGovernance
  | sqlPerformanceCountersV2
  | sqlWaitStatsCategorizedV2
  | sqlDatabaseIOV2
  | sqlServerPropertiesV2
  | sqlMemoryClerkV2
  | sqlServerSchedulersV2
  | sqlServerRequestsV2
  | sqlServerVolumeSpaceV2
  | sqlServerCpuV2
  | alwaysOnHealthV2
  | sqlCachedPlansV2
  | sqlInstanceWaitsV2
  | sqlPageLifeExpectancyV2
  | sqlLogUsageV2
  | sqlDatabasesByInstanceV2
  | sqlDatabasesOnAGV2
  | sqlJobRunsV2
  | sqlDatabasePropertiesV2
  | sqlBackupsV2
  | sqlOrphanedUsersV2
  | sqlUsersSysadminV2
  | sqlLockedUsersV2
  | sqlPolicyCheckedV2
  | sqlDiskUsageV2
  | sqlPerformanceCounters
  | sqlWaitStatsCategorized
  | sqlCPUHistory
  | sqlDatabaseIOV1
  | sqlDatabaseSize
  | sqlDatabaseStats
  | sqlDatabaseProperties
  | sqlMemoryClerk
  | sqlVolumeSpace
  | sqlPerformanceMetrics
deriving DecidableEq

/-- Go `type Query struct { Script string; OrderedColumns []string }`.
`OrderedColumns` is populated per unit from `rows.Columns()`; it is
modelled as part of the driver environment (`DB.cols`), so only the
script is kept here. -/
structure Query where
  Script : SqlScript
deriving DecidableEq

/-- Go `type MapQuery map[string]Query`; keys are distinct in every run
of `initQueries`, so an association list is an exact model. -/
abbrev MapQuery : Type := List (String × Query)

/-- The configuration fields of the Go `SQLServer` struct that the
embedded engine reads (`servers`, `query_version`, `azuredb`,
`include_query`, `exclude_query`, `tag_keys`).  The derived lookup maps
`includeQueries`, `excludeQueries`, `tags` have the same membership as
the lists they are built from. -/
structure SQLServer where
  Servers : List String
  QueryVersion : Int
  AzureDB : Bool
  IncludeQuery : List String
  ExcludeQuery : List String
  TagKeys : List String
deriving DecidableEq

/-- The `filter` closure of `initQueries`: start from `true`; if the
include set is non-empty replace the verdict by include-membership; if
the exclude set is non-empty replace the verdict by non-membership of
the exclude set. -/
def filterFn (includeQ excludeQ : List String) (name : String) : Bool :=
  let shouldInclude := true
  let shouldInclude := if 0 < includeQ.length then includeQ.contains name else shouldInclude
  if 0 < excludeQ.length then !(excludeQ.contains name) else shouldInclude

/-- The two extra entries inserted when `s.AzureDB` is set, in source
order. -/
def azureCatalog : List (String × SqlScript) :=
  [("AzureDBResourceStats", .sqlAzureDBResourceStats),
   ("AzureDBResourceGovernance", .sqlAzureDBResourceGovernance)]

/-- The version-2 catalog: the `if filter(name) { queries[name] = ... }`
blocks of the `s.QueryVersion == 2` branch, in source order. -/
def catalogV2 : List (String × SqlScript) :=
  [("PerformanceCounters", .sqlPerformanceCountersV2),
   ("WaitStatsCategorized", .sqlWaitStatsCategorizedV2),
   ("DatabaseIO", .sqlDatabaseIOV2),
   ("ServerProperties", .sqlServerPropertiesV2),
   ("MemoryClerk", .sqlMemoryClerkV2),
   ("Schedulers", .sqlServerSchedulersV2),
   ("SqlRequests", .sqlServerRequestsV2),
   ("VolumeSpace", .sqlServerVolumeSpaceV2),
   ("Cpu", .sqlServerCpuV2),
   ("AlwaysOnHealth", .alwaysOnHealthV2),
   ("CachedPlans", .sqlCachedPlansV2),
   ("InstanceWaits", .sqlInstanceWaitsV2),
   ("PageLifeExpectancy", .sqlPageLifeExpectancyV2),
   ("LogUsage", .sqlLogUsageV2),
   ("DatabasesByInstance", .sqlDatabasesByInstanceV2),
   ("DatabasesOnAG", .sqlDatabasesOnAGV2),
   ("JobRuns", .sqlJobRunsV2),
   ("DatabaseProperties", .sqlDatabasePropertiesV2),
   ("Backups", .sqlBackupsV2),
   ("OrphanedUsers", .sqlOrphanedUsersV2),
   ("UsersSysadmin", .sqlUsersSysadminV2),
   ("LockedUsers", .sqlLockedUsersV2),
   ("PolicyChecked", .sqlPolicyCheckedV2),
   ("DiskUsage", .sqlDiskUsageV2)]

/-- The version-1 catalog: the blocks of the `else` branch, in source
order. -/
def catalogV1 : List (String × SqlScript) :=
  [("PerformanceCounters", .sqlPerformanceCounters),
   ("WaitStatsCategorized", .sqlWaitStatsCategorized),
   ("CPUHistory", .sqlCPUHistory),
   ("DatabaseIO", .sqlDatabaseIOV1),
   ("DatabaseSize", .sqlDatabaseSize),
   ("DatabaseStats", .sqlDatabaseStats),
   ("DatabaseProperties", .sqlDatabaseProperties),
   ("MemoryClerk", .sqlMemoryClerk),
   ("VolumeSpace", .sqlVolumeSpace),
   ("PerformanceMetrics", .sqlPerformanceMetrics)]

/-- The sequence of candidate (name, script) insertions that
`initQueries` attempts, in source order: the AzureDB block when
`s.AzureDB` is set, then the `s.QueryVersion == 2` branch or the `else`
branch. -/
def baseCatalog (azure : Bool) (version : Int) : List (String × SqlScript) :=
  (if azure then azureCatalog else []) ++ (if version = 2 then catalogV2 else catalogV1)

/-- `initQueries`: run every candidate insertion through the `filter`
closure, inserting the survivors into the (initially empty) query map
in source order. -/
def initQueries (s : SQLServer) : MapQuery :=
  (baseCatalog s.AzureDB s.QueryVersion).foldl
    (fun m p =>
      if filterFn s.IncludeQuery s.ExcludeQuery p.1 then m ++ [(p.1, Query.mk p.2)] else m)
    []

/-- Dynamically typed column values as scanned from the driver
(`interface{}` targets of `row.Scan`): textual, numeric, boolean,
temporal or null. -/
inductive Value
  | str (s : String)
  | int (n : Int)
  | bool (b : Bool)
  | time (t : Nat)
  | null
deriving DecidableEq

/-- The Go type assertion `v.(string)`: `some` is the asserted string,
`none` is the run-time panic of a failed assertion. -/
def asString : Value → Option String
  | .str s => some s
  | _ => none

/-- One metric as handed to `acc.AddFields(measurement, fields, tags, time.Now())`.
The per-row `tags` and `fields` Go maps are association lists here
(keys distinct whenever the column names are). The wall-clock timestamp
is outside the embedding. -/
structure MetricRecord where
  measurement : String
  tags : List (String × String)
  fields : List (String × Value)
deriving DecidableEq

/-- The running state of the classification loop of `accRow`:
`var measurement string` (zero value `""`), the `tags` map and the
`fields` map. -/
structure ClassState where
  measurement : String
  tags : List (String × String)
  fields : List (String × Value)
deriving DecidableEq

/-- One iteration of the `for header, val := range columnMap` loop of
`accRow`: the `measurement` header and tag-key headers pass through the
`.(string)` assertion (whose failure, `none`, is a panic), every other
header becomes a field with its value unchanged. -/
def classifyStep (tagKeys : List String) (st : ClassState) (p : String × Value) :
    Option ClassState :=
  if p.1 = "measurement" then
    (asString p.2).map (fun s => { st with measurement := s })
  else if tagKeys.contains p.1 then
    (asString p.2).map (fun s => { st with tags := st.tags ++ [(p.1, s)] })
  else
    some { st with fields := st.fields ++ [(p.1, p.2)] }

/-- The classification loop of `accRow` over the (column name, scanned
value) pairs of one row.  `none` is the process-killing panic of a
failed `.(string)` assertion.  The Go loop ranges over a map in
arbitrary order; it is modelled in column order, which has the same
outcome whenever column names are distinct. -/
def classifyRow (tagKeys : List String) (row : List (String × Value)) :
    Option MetricRecord :=
  (row.foldlM (classifyStep tagKeys) ⟨"", [], []⟩).map
    (fun st => ⟨st.measurement, st.tags, st.fields⟩)

/-- Decidable no-panic condition for one row: every value whose column
is named `measurement`, and every value whose column is a tag key, is
textual. -/
def rowDecodable (tagKeys : List String) (row : List (String × Value)) : Bool :=
  row.all (fun p =>
    if p.1 = "measurement" then (asString p.2).isSome
    else if tagKeys.contains p.1 then (asString p.2).isSome
    else true)

/-- Outcome of `accRow` for one row: the `row.Scan` error return, the
panic of a failed type assertion, or the decoded record (which the
source immediately hands to `acc.AddFields` before returning `nil`). -/
inductive RowOutcome
  | scanFail (e : String)
  | typePanic
  | ok (rec : MetricRecord)
deriving DecidableEq

/-- The record of a `RowOutcome`, when one was produced. -/
def RowOutcome.record? : RowOutcome → Option MetricRecord
  | .ok rec => some rec
  | _ => none

/-- `accRow`: build `columnMap` / `columnVars` from the ordered column
names, `row.Scan` into them (`rowData` is the scan outcome: the scanned
values in column order, or the scan error), then classify each column.
-/
def accRow (tagKeys : List String) (cols : List String)
    (rowData : Except String (List Value)) : RowOutcome :=
  match rowData with
  | .error e => .scanFail e
  | .ok vals =>
    match classifyRow tagKeys (cols.zip vals) with
    | none => .typePanic
    | some rec => .ok rec

/-- What the driver does for one (server, script) unit: the error of
`sql.Open` if any, the error of `conn.Query`, the error of
`rows.Columns`, the column names, the scan outcome of each returned
row, and the final `rows.Err()`. -/
structure DB where
  openErr : Option String
  queryErr : Option String
  colsErr : Option String
  cols : List String
  rows : List (Except String (List Value))
  finalErr : Option String

/-- The error a unit hands to `acc.AddError`, verbatim from the failing
call; the constructors record the failing phase, and carry nothing but
the underlying message — in particular neither the server nor the query
name. -/
inductive GErr
  | connErr (e : String)
  | execErr (e : String)
  | colsErr (e : String)
  | scanErr (e : String)
  | rowsErr (e : String)
deriving DecidableEq

/-- Result of the row loop of `gatherServer`: the records already
handed to the accumulator, the error returned (if any), and whether a
row panicked the process. -/
structure RowsResult where
  emitted : List MetricRecord
  err : Option GErr
  panicked : Bool
deriving DecidableEq

/-- The `for rows.Next()` loop of `gatherServer`: each row goes through
`accRow`; a scan error is returned at once (rows already decoded were
already accumulated); a panic unwinds; after the last row the loop
returns `rows.Err()`. -/
def runRows (tagKeys cols : List String) (rows : List (Except String (List Value)))
    (finalErr : Option String) : RowsResult :=
  match rows with
  | [] => ⟨[], finalErr.map .rowsErr, false⟩
  | r :: rest =>
    match accRow tagKeys cols r with
    | .scanFail e => ⟨[], some (.scanErr e), false⟩
    | .typePanic => ⟨[], none, true⟩
    | .ok rec =>
      let t := runRows tagKeys cols rest finalErr
      ⟨rec :: t.emitted, t.err, t.panicked⟩

/-- Result of one (server, query) unit: records accumulated, the error
returned to `Gather`, how many connections were opened and released
(the `defer conn.Close()` runs on every exit, panic unwinding
included), and whether the unit panicked. -/
structure UnitResult where
  emitted : List MetricRecord
  err : Option GErr
  opens : Nat
  closes : Nat
  panicked : Bool
deriving DecidableEq

/-- `gatherServer`: open the connection (returning the `sql.Open` error
with nothing opened), `defer conn.Close()`, execute the script, read
the column names, then run the row loop; every post-open exit releases
the connection exactly once. -/
def gatherServer (tagKeys : List String) (db : DB) : UnitResult :=
  match db.openErr with
  | some e => ⟨[], some (.connErr e), 0, 0, false⟩
  | none =>
    match db.queryErr with
    | some e => ⟨[], some (.execErr e), 1, 1, false⟩
    | none =>
      match db.colsErr with
      | some e => ⟨[], some (.colsErr e), 1, 1, false⟩
      | none =>
        let r := runRows tagKeys db.cols db.rows db.finalErr
        ⟨r.emitted, r.err, 1, 1, r.panicked⟩

/-- The units `Gather` launches: one per configured server per selected
query, each fed the driver behaviour for its (server, script) pair.
The goroutines are modelled sequentially in launch order; every
property stated about the result is order-irrelevant. -/
def gatherUnits (s : SQLServer) (env : String → SqlScript → DB) : List UnitResult :=
  s.Servers.flatMap (fun srv =>
    (initQueries s).map (fun q => gatherServer s.TagKeys (env srv q.2.Script)))

/-- Aggregate outcome of one `Gather` call: all accumulated records,
the error collection, whether some unit panicked (killing the process),
and the value `Gather` itself returns. -/
structure GatherResult where
  emitted : List MetricRecord
  errors : List GErr
  panicked : Bool
  ret : Option String
deriving DecidableEq

/-- `Gather`: initialize the query set if needed, launch every unit,
pass each unit's return to `acc.AddError` (the accumulator, an external
collaborator, ignores a `nil` error, so the collection keeps the
non-`nil` ones), wait, and `return nil`. -/
def gather (s : SQLServer) (env : String → SqlScript → DB) : GatherResult :=
  let us := gatherUnits s env
  { emitted := (us.map (·.emitted)).flatten
    errors := us.filterMap (·.err)
    panicked := us.any (·.panicked)
    ret := none }

/-- Concrete configuration exercising a non-empty include-list together
with a non-empty exclude-list (version-1 catalog, no AzureDB). -/
def c1Config : SQLServer := ⟨[], 1, false, ["DatabaseIO"], ["MemoryClerk"], []⟩

/-- Two servers, one selected query. -/
def c3Config : SQLServer := ⟨["s1", "s2"], 2, false, ["CachedPlans"], [], []⟩

/-- A driver that rejects every connection with the same message. -/
def c3Env : String → SqlScript → DB := fun _ _ => ⟨some "boom", none, none, [], [], none⟩

/-- One server, one selected query. -/
def c5Config : SQLServer := ⟨["s1"], 2, false, ["CachedPlans"], [], []⟩

/-- A driver returning one row whose `measurement` column holds a
non-textual value. -/
def c5Env : String → SqlScript → DB :=
  fun _ _ => ⟨none, none, none, ["measurement"], [Except.ok [Value.int 3]], none⟩

/-- Two servers, full version-1 catalog selected, every unit failing. -/
def c5wConfig : SQLServer := ⟨["s1", "s2"], 1, false, [], [], []⟩

/-- A driver where query execution always fails. -/
def c5wEnv : String → SqlScript → DB := fun _ _ => ⟨none, some "down", none, [], [], none⟩

/-- Both filter lists empty, AzureDB additions on, version-2 catalog. -/
def c6Config : SQLServer := ⟨[], 2, true, [], [], []⟩

/-- A healthy unit: connection, query and columns succeed, one textual
row comes back. -/
def c7Db : DB := ⟨none, none, none, ["measurement"], [Except.ok [Value.str "m"]], none⟩

section Lemmas

/-- Inserting through a boolean gate while folding left equals
filtering then mapping. -/
theorem foldl_insert_eq_filter_map {α β : Type} (f : α → Bool) (g : α → β) :
    ∀ (l : List α) (acc : List β),
      l.foldl (fun m p => if f p then m ++ [g p] else m) acc = acc ++ (l.filter f).map g
  | [], _ => by simp
  | p :: l, acc => by
    by_cases hp : f p <;>
      simp [List.filter_cons, hp, foldl_insert_eq_filter_map f g l]

/-- `initQueries` is the catalog filtered through the closure, with
each surviving name bound to its script. -/
theorem initQueries_eq_filter (s : SQLServer) :
    initQueries s =
      ((baseCatalog s.AzureDB s.QueryVersion).filter
          (fun p => filterFn s.IncludeQuery s.ExcludeQuery p.1)).map
        (fun p => (p.1, Query.mk p.2)) := by
  simpa using foldl_insert_eq_filter_map
    (fun p => filterFn s.IncludeQuery s.ExcludeQuery p.1)
    (fun p => (p.1, Query.mk p.2)) (baseCatalog s.AzureDB s.QueryVersion) []

/-- With a non-empty exclude-list the closure's verdict is exclusion
membership alone, whatever the include-list holds. -/
theorem filterFn_of_exclude_ne (includeQ excludeQ : List String) (name : String)
    (hE : excludeQ ≠ []) : filterFn includeQ excludeQ name = !(excludeQ.contains name) := by
  have h : 0 < excludeQ.length := List.length_pos.mpr hE
  simp [filterFn, h]

/-- A name is selected exactly when some catalog entry carries it and
the closure lets it through. -/
theorem mem_initQueries (s : SQLServer) (name : String) :
    name ∈ (initQueries s).map Prod.fst ↔
      (name ∈ (baseCatalog s.AzureDB s.QueryVersion).map Prod.fst ∧
        filterFn s.IncludeQuery s.ExcludeQuery name = true) := by
  rw [initQueries_eq_filter, List.map_map]
  simp only [List.mem_map, List.mem_filter, Function.comp]
  constructor
  · rintro ⟨p, ⟨hp, hf⟩, rfl⟩
    exact ⟨⟨p, hp, rfl⟩, hf⟩
  · rintro ⟨⟨p, hp, hp1⟩, hf⟩
    exact ⟨p, ⟨hp, hp1 ▸ hf⟩, hp1⟩

/-- Characterization of a panic-free classification loop, for any
starting state: the measurement is the fold of the `measurement`-named
values, tags and fields extend the state with the tag-key / remaining
columns in order, values untouched. -/
theorem classify_foldlM (tagKeys : List String) :
    ∀ (row : List (String × Value)) (st : ClassState),
      rowDecodable tagKeys row = true →
      row.foldlM (classifyStep tagKeys) st =
        some
          ⟨row.foldl
              (fun a p => if p.1 = "measurement" then (asString p.2).getD a else a)
              st.measurement,
            st.tags ++
              (row.filter (fun p =>
                  if p.1 = "measurement" then false else tagKeys.contains p.1)).map
                (fun p => (p.1, (asString p.2).getD "")),
            st.fields ++
              row.filter (fun p =>
                if p.1 = "measurement" then false else !(tagKeys.contains p.1))⟩
  | [], st, _ => by simp
  | p :: rest, st, h => by
    simp only [rowDecodable, List.all_cons, Bool.and_eq_true] at h
    obtain ⟨h1, h2⟩ := h
    by_cases hpm : p.1 = "measurement"
    · obtain ⟨s, hs⟩ := Option.isSome_iff_exists.mp (by simpa [hpm] using h1)
      have ih := classify_foldlM tagKeys rest { st with measurement := s } h2
      simp [classifyStep, hpm, hs, ih, List.filter_cons]
    · by_cases hpt : p.1 ∈ tagKeys
      · obtain ⟨s, hs⟩ := Option.isSome_iff_exists.mp (by simpa [hpm, hpt] using h1)
        have ih := classify_foldlM tagKeys rest
          { st with tags := st.tags ++ [(p.1, s)] } h2
        simp [classifyStep, hpm, hpt, hs, ih, List.filter_cons]
      · have ih := classify_foldlM tagKeys rest
          { st with fields := st.fields ++ [(p.1, p.2)] } h2
        simp [classifyStep, hpm, hpt, ih, List.filter_cons]

/-- A row with a non-textual `measurement` or tag value panics the
classification loop from any starting state. -/
theorem classify_foldlM_none (tagKeys : List String) :
    ∀ (row : List (String × Value)) (st : ClassState),
      rowDecodable tagKeys row = false →
      row.foldlM (classifyStep tagKeys) st = none
  | [], _, h => by simp [rowDecodable] at h
  | p :: rest, st, h => by
    by_cases hpm : p.1 = "measurement"
    · cases hs : asString p.2 with
      | none => simp [classifyStep, hpm, hs]
      | some s =>
        have h2 : rowDecodable tagKeys rest = false := by
          simpa [rowDecodable, hpm, hs] using h
        simp [classifyStep, hpm, hs, classify_foldlM_none tagKeys rest _ h2]
    · by_cases hpt : p.1 ∈ tagKeys
      · cases hs : asString p.2 with
        | none => simp [classifyStep, hpm, hpt, hs]
        | some s =>
          have h2 : rowDecodable tagKeys rest = false := by
            simpa [rowDecodable, hpm, hpt, hs] using h
          simp [classifyStep, hpm, hpt, hs, classify_foldlM_none tagKeys rest _ h2]
      · have h2 : rowDecodable tagKeys rest = false := by
          simpa [rowDecodable, hpm, hpt] using h
        simp [classifyStep, hpm, hpt, classify_foldlM_none tagKeys rest _ h2]

/-- `classifyRow` on a panic-free row, explicitly. -/
theorem classifyRow_eq (tagKeys : List String) (row : List (String × Value))
    (h : rowDecodable tagKeys row = true) :
    classifyRow tagKeys row =
      some
        ⟨row.foldl (fun a p => if p.1 = "measurement" then (asString p.2).getD a else a) "",
          (row.filter (fun p =>
              if p.1 = "measurement" then false else tagKeys.contains p.1)).map
            (fun p => (p.1, (asString p.2).getD "")),
          row.filter (fun p =>
            if p.1 = "measurement" then false else !(tagKeys.contains p.1))⟩ := by
  simp [classifyRow, classify_foldlM tagKeys row ⟨"", [], []⟩ h]

/-- Without a `measurement`-named column the measurement fold keeps its
start value (the Go zero value). -/
theorem measFold_of_not_mem :
    ∀ (row : List (String × Value)) (a : String),
      (∀ p ∈ row, p.1 ≠ "measurement") →
      row.foldl (fun a p => if p.1 = "measurement" then (asString p.2).getD a else a) a = a
  | [], _, _ => rfl
  | p :: rest, a, h => by
    have hp : p.1 ≠ "measurement" := h p (List.mem_cons_self p rest)
    simp only [List.foldl_cons, if_neg hp]
    exact measFold_of_not_mem rest a (fun q hq => h q (List.mem_cons_of_mem p hq))

/-- With distinct column names and a `measurement` column of textual
value `m`, the measurement fold yields `m`. -/
theorem measFold_of_nodup :
    ∀ (row : List (String × Value)) (a m : String),
      (row.map Prod.fst).Nodup →
      ("measurement", Value.str m) ∈ row →
      row.foldl (fun a p => if p.1 = "measurement" then (asString p.2).getD a else a) a = m
  | [], _, _, _, hm => absurd hm (List.not_mem_nil _)
  | p :: rest, a, m, hnd, hm => by
    simp only [List.map_cons, List.nodup_cons] at hnd
    obtain ⟨hp1, hnd2⟩ := hnd
    rcases List.mem_cons.mp hm with he | hr
    · have hpm : p.1 = "measurement" := by rw [← he]
      have hps : asString p.2 = some m := by rw [← he]; rfl
      simp only [List.foldl_cons, if_pos hpm, hps, Option.getD_some]
      refine measFold_of_not_mem rest m (fun q hq hq1 => hp1 ?_)
      rw [hpm, ← hq1]
      exact List.mem_map_of_mem Prod.fst hq
    · have hpm : p.1 ≠ "measurement" := fun hc => by
        refine hp1 ?_
        rw [hc]
        exact List.mem_map_of_mem Prod.fst hr
      simp only [List.foldl_cons, if_neg hpm]
      exact measFold_of_nodup rest a m hnd2 hr

/-- When every row of `good` decodes and the following row does not,
the row loop has already accumulated exactly the records of `good`, and
the unit ends in a returned error or a panic. -/
theorem runRows_midstream (tagKeys cols : List String) (finalErr : Option String) :
    ∀ (good : List (Except String (List Value))) (bad : Except String (List Value))
      (rest : List (Except String (List Value))),
      (∀ r ∈ good, (accRow tagKeys cols r).record?.isSome = true) →
      (accRow tagKeys cols bad).record? = none →
      (runRows tagKeys cols (good ++ bad :: rest) finalErr).emitted =
          good.filterMap (fun r => (accRow tagKeys cols r).record?) ∧
        ((runRows tagKeys cols (good ++ bad :: rest) finalErr).err.isSome = true ∨
          (runRows tagKeys cols (good ++ bad :: rest) finalErr).panicked = true)
  | [], bad, rest, _, hbad => by
    cases hb : accRow tagKeys cols bad with
    | scanFail e => simp [runRows, hb]
    | typePanic => simp [runRows, hb]
    | ok rec => rw [hb] at hbad; simp [RowOutcome.record?] at hbad
  | g :: good, bad, rest, hgood, hbad => by
    have hg := hgood g (List.mem_cons_self g good)
    cases hb : accRow tagKeys cols g with
    | scanFail e => rw [hb] at hg; simp [RowOutcome.record?] at hg
    | typePanic => rw [hb] at hg; simp [RowOutcome.record?] at hg
    | ok rec =>
      have ih := runRows_midstream tagKeys cols finalErr good bad rest
        (fun r hr => hgood r (List.mem_cons_of_mem g hr)) hbad
      have hdv : (accRow tagKeys cols g).record? = some rec := by rw [hb]; rfl
      have hrr : runRows tagKeys cols ((g :: good) ++ bad :: rest) finalErr =
          ⟨rec :: (runRows tagKeys cols (good ++ bad :: rest) finalErr).emitted,
            (runRows tagKeys cols (good ++ bad :: rest) finalErr).err,
            (runRows tagKeys cols (good ++ bad :: rest) finalErr).panicked⟩ := by
        simp [runRows, hb]
      constructor
      · have hfc : List.filterMap (fun r => (accRow tagKeys cols r).record?) (g :: good) =
            rec :: List.filterMap (fun r => (accRow tagKeys cols r).record?) good := by
          simp only [List.filterMap_cons, hdv]
        rw [hrr, hfc]
        exact congrArg (List.cons rec) ih.1
      · rw [hrr]
        exact ih.2

/-- Keeping the `some` results of a partial map yields as many entries
as there are arguments mapped to `some`. -/
theorem length_filterMap_isSome {α β : Type} (f : α → Option β) :
    ∀ l : List α, (l.filterMap f).length = (l.filter (fun a => (f a).isSome)).length
  | [] => rfl
  | a :: l => by
    cases hf : f a <;>
      simp [List.filterMap_cons, List.filter_cons, hf, length_filterMap_isSome f l]

end Lemmas

section Claims

/-- C1, counterexample: with the non-empty include-list
`["DatabaseIO"]` and non-empty exclude-list `["MemoryClerk"]`,
`initQueries` selects `PerformanceCounters`, a catalog name absent from
the include-list — so the selected set is not `(catalog ∩ I) − E`. -/
theorem claimC1_cex :
    "PerformanceCounters" ∈ (initQueries c1Config).map Prod.fst ∧
      ¬ "PerformanceCounters" ∈ c1Config.IncludeQuery ∧
      c1Config.IncludeQuery ≠ [] ∧ c1Config.ExcludeQuery ≠ [] := by
  decide

/-- C1, amended: for every configuration with a non-empty include-list
and a non-empty exclude-list, the QuerySet built by `initQueries`
equals the catalog minus the exclude-list — the include-list is ignored
because the exclude check overwrites the include check's verdict. -/
theorem claimC1_thm (s : SQLServer) (_hI : s.IncludeQuery ≠ []) (hE : s.ExcludeQuery ≠ []) :
    initQueries s =
      ((baseCatalog s.AzureDB s.QueryVersion).filter
          (fun p => !(s.ExcludeQuery.contains p.1))).map
        (fun p => (p.1, Query.mk p.2)) := by
  rw [initQueries_eq_filter]
  have hf : ∀ p ∈ baseCatalog s.AzureDB s.QueryVersion,
      filterFn s.IncludeQuery s.ExcludeQuery p.1 = !(s.ExcludeQuery.contains p.1) :=
    fun p _ => filterFn_of_exclude_ne s.IncludeQuery s.ExcludeQuery p.1 hE
  rw [List.filter_congr hf]

/-- C1, witness for the amended theorem at `c1Config`. -/
theorem claimC1_witness :
    c1Config.IncludeQuery ≠ [] ∧ c1Config.ExcludeQuery ≠ [] ∧
      initQueries c1Config =
        ((baseCatalog c1Config.AzureDB c1Config.QueryVersion).filter
            (fun p => !(c1Config.ExcludeQuery.contains p.1))).map
          (fun p => (p.1, Query.mk p.2)) :=
  ⟨by decide, by decide, claimC1_thm c1Config (by decide) (by decide)⟩

/-- C2, counterexample: the row `{x: 1}` has no `measurement` column,
yet `accRow` does not fail — it emits a MetricRecord with the empty
measurement name and `x` as a field. -/
theorem claimC2_cex :
    ¬ "measurement" ∈ ["x"] ∧
      accRow [] ["x"] (Except.ok [Value.int 1]) =
        RowOutcome.ok ⟨"", [], [("x", Value.int 1)]⟩ := by
  decide

/-- C2, amended: a row without a `measurement` column (whose
measurement- and tag-classified values are textual) does not fail:
`accRow` succeeds and emits a MetricRecord whose measurement name is
the zero value `""`; and a non-textual measurement or tag value makes
`accRow` panic — an unrecoverable runtime type-assertion failure, not a
returned decode error confined to the owning pair. -/
theorem claimC2_thm (tagKeys cols : List String) (vals : List Value) :
    (¬ "measurement" ∈ cols →
      rowDecodable tagKeys (cols.zip vals) = true →
      ∃ rec, accRow tagKeys cols (Except.ok vals) = RowOutcome.ok rec ∧
        rec.measurement = "") ∧
      (rowDecodable tagKeys (cols.zip vals) = false →
        accRow tagKeys cols (Except.ok vals) = RowOutcome.typePanic) := by
  constructor
  · intro hnm hd
    have hc := classifyRow_eq tagKeys (cols.zip vals) hd
    refine ⟨⟨(cols.zip vals).foldl
          (fun a p => if p.1 = "measurement" then (asString p.2).getD a else a) "",
        ((cols.zip vals).filter (fun p =>
            if p.1 = "measurement" then false else tagKeys.contains p.1)).map
          (fun p => (p.1, (asString p.2).getD "")),
        (cols.zip vals).filter (fun p =>
          if p.1 = "measurement" then false else !(tagKeys.contains p.1))⟩, ?_, ?_⟩
    · simp [accRow, hc]
    · refine measFold_of_not_mem (cols.zip vals) "" ?_
      intro p hp hp1
      exact hnm (hp1 ▸ (List.of_mem_zip hp).1)
  · intro hd
    have hn := classify_foldlM_none tagKeys (cols.zip vals) ⟨"", [], []⟩ hd
    simp [accRow, classifyRow, hn]

/-- C2, witness: the first part at the measurement-less row `{x: 1}`,
the second at a row whose tag column `t` holds an integer. -/
theorem claimC2_witness :
    (∃ rec, accRow [] ["x"] (Except.ok [Value.int 1]) = RowOutcome.ok rec ∧
      rec.measurement = "") ∧
      accRow ["t"] ["t"] (Except.ok [Value.int 7]) = RowOutcome.typePanic :=
  ⟨(claimC2_thm [] ["x"] [Value.int 1]).1 (by decide) (by decide),
    (claimC2_thm ["t"] ["t"] [Value.int 7]).2 (by decide)⟩

/-- C3, counterexample: two distinct servers fail the same way; the
error collection holds two identical untagged entries, carrying neither
the server nor the query name that produced them. -/
theorem claimC3_cex :
    (gather c3Config c3Env).errors = [GErr.connErr "boom", GErr.connErr "boom"] ∧
      c3Config.Servers = ["s1", "s2"] := by
  decide

/-- C3, amended: every failing unit contributes exactly one error to
the cycle's collection, and every collected error is some unit's error
passed through verbatim — with no server or query tag attached. -/
theorem claimC3_thm (s : SQLServer) (env : String → SqlScript → DB) :
    (gather s env).errors.length =
        ((gatherUnits s env).filter (fun u => u.err.isSome)).length ∧
      ∀ e ∈ (gather s env).errors, ∃ u, u ∈ gatherUnits s env ∧ u.err = some e := by
  constructor
  · exact length_filterMap_isSome (fun u => u.err) (gatherUnits s env)
  · intro e he
    exact List.mem_filterMap.mp he

/-- C4: on a row with distinct column names, a textual `measurement`
column and textual tag-key columns, `accRow` produces the record whose
fields are exactly the columns that are neither `measurement` nor tag
keys (values passed through unchanged), whose tags are the tag-key
columns under their own names, and whose measurement name is the
`measurement` column's value. -/
theorem claimC4_thm (tagKeys cols : List String) (vals : List Value) (m : String)
    (hlen : cols.length = vals.length)
    (hnd : cols.Nodup)
    (hd : rowDecodable tagKeys (cols.zip vals) = true)
    (hm : ("measurement", Value.str m) ∈ cols.zip vals) :
    accRow tagKeys cols (Except.ok vals) =
      RowOutcome.ok
        ⟨m,
          ((cols.zip vals).filter (fun p =>
              if p.1 = "measurement" then false else tagKeys.contains p.1)).map
            (fun p => (p.1, (asString p.2).getD "")),
          (cols.zip vals).filter (fun p =>
            if p.1 = "measurement" then false else !(tagKeys.contains p.1))⟩ := by
  have hc := classifyRow_eq tagKeys (cols.zip vals) hd
  have hmap : (cols.zip vals).map Prod.fst = cols :=
    List.map_fst_zip cols vals (le_of_eq hlen)
  have hnd2 : ((cols.zip vals).map Prod.fst).Nodup := by rw [hmap]; exact hnd
  have hmeas := measFold_of_nodup (cols.zip vals) "" m hnd2 hm
  simp [accRow, hc, hmeas]

/-- C4, witness at the row `{measurement: "m", host: "h1", value: 42}`
with `host` a configured tag key. -/
theorem claimC4_witness :
    accRow ["host"] ["measurement", "host", "value"]
        (Except.ok [Value.str "m", Value.str "h1", Value.int 42]) =
      RowOutcome.ok ⟨"m", [("host", "h1")], [("value", Value.int 42)]⟩ :=
  claimC4_thm ["host"] ["measurement", "host", "value"]
    [Value.str "m", Value.str "h1", Value.int 42] "m"
    (by decide) (by decide) (by decide) (by decide)

/-- C5, counterexample: one unit's row decoding hits a non-textual
`measurement` value; the resulting panic kills the process, so the
cycle does not complete at all (let alone return success). -/
theorem claimC5_cex : (gather c5Config c5Env).panicked = true := by
  decide

/-- C5, amended: whenever no unit's row decoding panics, a gather cycle
completes and returns success (`nil`), whatever the per-unit outcomes —
including all units failing — with failures surfaced only as collected
errors. -/
theorem claimC5_thm (s : SQLServer) (env : String → SqlScript → DB)
    (h : ∀ u ∈ gatherUnits s env, u.panicked = false) :
    (gather s env).panicked = false ∧ (gather s env).ret = none := by
  refine ⟨?_, rfl⟩
  simp only [gather, List.any_eq_false]
  intro u hu
  simp [h u hu]

/-- C5, witness: two servers, the full version-1 catalog, every unit's
query execution failing; the cycle still completes and returns `nil`. -/
theorem claimC5_witness :
    (∀ u ∈ gatherUnits c5wConfig c5wEnv, u.panicked = false) ∧
      ((gather c5wConfig c5wEnv).panicked = false ∧ (gather c5wConfig c5wEnv).ret = none) :=
  ⟨by decide, claimC5_thm c5wConfig c5wEnv (by decide)⟩

/-- C6: with an empty include-list and an empty exclude-list,
`initQueries` selects every catalog entry — for either query version,
with or without the AzureDB additions — each bound to its catalog's
script. -/
theorem claimC6_thm (s : SQLServer) (hI : s.IncludeQuery = []) (hE : s.ExcludeQuery = []) :
    initQueries s =
      (baseCatalog s.AzureDB s.QueryVersion).map (fun p => (p.1, Query.mk p.2)) := by
  rw [initQueries_eq_filter]
  have hf : ∀ p ∈ baseCatalog s.AzureDB s.QueryVersion,
      filterFn s.IncludeQuery s.ExcludeQuery p.1 = true := by
    intro p _
    simp [filterFn, hI, hE]
  rw [List.filter_eq_self.mpr hf]

/-- C6, witness at the AzureDB + version-2 configuration with both
lists empty. -/
theorem claimC6_witness :
    c6Config.IncludeQuery = [] ∧ c6Config.ExcludeQuery = [] ∧
      initQueries c6Config =
        (baseCatalog c6Config.AzureDB c6Config.QueryVersion).map
          (fun p => (p.1, Query.mk p.2)) :=
  ⟨rfl, rfl, claimC6_thm c6Config rfl rfl⟩

/-- C7: for every unit whose connection-open succeeds, exactly one
connection is opened and exactly one is released, on every exit path —
normal completion, query-execution failure, column-retrieval failure,
and row-decode failure (the deferred release runs even while a panic
unwinds). -/
theorem claimC7_thm (tagKeys : List String) (db : DB) (h : db.openErr = none) :
    (gatherServer tagKeys db).opens = 1 ∧ (gatherServer tagKeys db).closes = 1 := by
  cases hq : db.queryErr <;> cases hc : db.colsErr <;>
    simp [gatherServer, h, hq, hc]

/-- C7, witness at a healthy unit. -/
theorem claimC7_witness :
    c7Db.openErr = none ∧
      ((gatherServer [] c7Db).opens = 1 ∧ (gatherServer [] c7Db).closes = 1) :=
  ⟨rfl, claimC7_thm [] c7Db rfl⟩

/-- C8: if a unit's rows split as a decodable prefix followed by a
failing row, the unit fails (returned error or panic) but its
accumulated output already holds exactly the records decoded from the
prefix — each record was forwarded as soon as its row was decoded. -/
theorem claimC8_thm (tagKeys : List String) (db : DB)
    (good : List (Except String (List Value))) (bad : Except String (List Value))
    (rest : List (Except String (List Value)))
    (h1 : db.openErr = none) (h2 : db.queryErr = none) (h3 : db.colsErr = none)
    (h4 : db.rows = good ++ bad :: rest)
    (h5 : ∀ r ∈ good, (accRow tagKeys db.cols r).record?.isSome = true)
    (h6 : (accRow tagKeys db.cols bad).record? = none) :
    (gatherServer tagKeys db).emitted =
        good.filterMap (fun r => (accRow tagKeys db.cols r).record?) ∧
      ((gatherServer tagKeys db).err.isSome = true ∨
        (gatherServer tagKeys db).panicked = true) := by
  have hmid := runRows_midstream tagKeys db.cols db.finalErr good bad rest h5 h6
  have hgs : gatherServer tagKeys db =
      ⟨(runRows tagKeys db.cols db.rows db.finalErr).emitted,
        (runRows tagKeys db.cols db.rows db.finalErr).err, 1, 1,
        (runRows tagKeys db.cols db.rows db.finalErr).panicked⟩ := by
    simp [gatherServer, h1, h2, h3]
  rw [hgs, h4]
  exact hmid

/-- C8, witness: a unit whose first row decodes and whose second row's
scan fails; the first row's record is already in the output. -/
theorem claimC8_witness :
    (gatherServer []
          ⟨none, none, none, ["measurement"],
            [Except.ok [Value.str "m"], Except.error "bad row"], none⟩).emitted =
        List.filterMap
          (fun r => (accRow [] ["measurement"] r).record?)
          [Except.ok [Value.str "m"]] ∧
      ((gatherServer []
            ⟨none, none, none, ["measurement"],
              [Except.ok [Value.str "m"], Except.error "bad row"], none⟩).err.isSome = true ∨
        (gatherServer []
            ⟨none, none, none, ["measurement"],
              [Except.ok [Value.str "m"], Except.error "bad row"], none⟩).panicked = true) :=
  claimC8_thm [] ⟨none, none, none, ["measurement"],
      [Except.ok [Value.str "m"], Except.error "bad row"], none⟩
    [Except.ok [Value.str "m"]] (Except.error "bad row") []
    rfl rfl rfl rfl (by decide) (by decide)

/-- C9: whenever the exclude-list is non-empty, a catalog name is
selected by `initQueries` exactly when it is absent from the
exclude-list — whatever the include-list holds, so even a name absent
from a non-empty include-list is selected. -/
theorem claimC9_thm (s : SQLServer) (name : String) (hE : s.ExcludeQuery ≠ [])
    (hc : name ∈ (baseCatalog s.AzureDB s.QueryVersion).map Prod.fst) :
    name ∈ (initQueries s).map Prod.fst ↔ ¬ name ∈ s.ExcludeQuery := by
  rw [mem_initQueries, filterFn_of_exclude_ne s.IncludeQuery s.ExcludeQuery name hE]
  simp [hc]

/-- C9, witness: `PerformanceCounters` is absent from `c1Config`'s
non-empty include-list yet selected, being outside the exclude-list. -/
theorem claimC9_witness :
    c1Config.ExcludeQuery ≠ [] ∧
      "PerformanceCounters" ∈ (baseCatalog c1Config.AzureDB c1Config.QueryVersion).map Prod.fst ∧
      ("PerformanceCounters" ∈ (initQueries c1Config).map Prod.fst ↔
        ¬ "PerformanceCounters" ∈ c1Config.ExcludeQuery) :=
  ⟨by decide, by decide, claimC9_thm c1Config "PerformanceCounters" (by decide) (by decide)⟩

/-- C10: every `QueryVersion` other than exactly 2 — zero, negative or
greater than 2 — makes `initQueries` build from the version-1 catalog
(plus the AzureDB additions when configured); only the exact value 2
selects the version-2 catalog. -/
theorem claimC10_thm (s : SQLServer) (h : s.QueryVersion ≠ 2) :
    initQueries s =
      (((if s.AzureDB then azureCatalog else []) ++ catalogV1).filter
          (fun p => filterFn s.IncludeQuery s.ExcludeQuery p.1)).map
        (fun p => (p.1, Query.mk p.2)) := by
  rw [initQueries_eq_filter]
  simp [baseCatalog, h]

/-- C10, witness at versions 0, −5 and 7. -/
theorem claimC10_witness :
    (initQueries ⟨[], 0, false, [], [], []⟩ =
        (((if (false : Bool) then azureCatalog else []) ++ catalogV1).filter
            (fun p => filterFn [] [] p.1)).map (fun p => (p.1, Query.mk p.2))) ∧
      (initQueries ⟨[], -5, false, [], [], []⟩ =
        (((if (false : Bool) then azureCatalog else []) ++ catalogV1).filter
            (fun p => filterFn [] [] p.1)).map (fun p => (p.1, Query.mk p.2))) ∧
      (initQueries ⟨[], 7, false, [], [], []⟩ =
        (((if (false : Bool) then azureCatalog else []) ++ catalogV1).filter
            (fun p => filterFn [] [] p.1)).map (fun p => (p.1, Query.mk p.2))) :=
  ⟨claimC10_thm ⟨[], 0, false, [], [], []⟩ (by decide),
    claimC10_thm ⟨[], -5, false, [], [], []⟩ (by decide),
    claimC10_thm ⟨[], 7, false, [], [], []⟩ (by decide)⟩

end Claims

end SqlServerPlugin
